import Mathlib

/-!
Shallow embedding of the quiz session state machine of `src/services/gameService.js`
(class `GameService`) together with `shuffleArray` from `src/utils/quizParser.js`.

JS numbers that carry fractional values (timestamps in ms, elapsed seconds,
score bounds) are modelled as rationals; JS objects used as dictionaries are
modelled as association lists with JS assignment semantics (update in place,
append new keys); the JS `Set` of answered users is a duplicate-free insertion
list; `Date.now()` is passed explicitly as a `now` parameter; `Math.random()`
draws of the Fisher-Yates loop are an oracle `rand : ℕ → ℕ` giving the chosen
index for each loop counter.
-/

namespace AkaQuiz

/-- One answer option of a question: `{ text, img }` as produced by the parser. -/
structure QOption where
  text : String
  img : Option String
deriving DecidableEq

/-- A parsed quiz question: `{ question, questionImg, options, correct }`.
`correct` is the 0-based correct index, `-1` when absent or non-numeric. -/
structure Question where
  question : String
  questionImg : Option String
  options : List QOption
  correct : Int
deriving DecidableEq

/-- Per-question analytics record created lazily on first answer
(`answerAnalytics.questionStats[i]`). -/
structure QuestionStat where
  question : String
  correctAnswers : Nat
  totalAnswers : Nat
  averageResponseTime : ℚ
  responseTimes : List ℚ
deriving DecidableEq

/-- The `answerAnalytics` accumulator.  The sparse JS array `questionStats`
is modelled as an association list from question index to stat record. -/
structure Analytics where
  totalAnswers : Nat
  correctAnswers : Nat
  averageResponseTime : ℚ
  responseTimeDistribution : List ℚ
  questionStats : List (Int × QuestionStat)
deriving DecidableEq

/-- The analytics value installed by the constructor, `loadQuiz` and `resetGame`. -/
def initialAnalytics : Analytics :=
  { totalAnswers := 0
    correctAnswers := 0
    averageResponseTime := 0
    responseTimeDistribution := []
    questionStats := [] }

/-- The scoring block of the configuration (`config.game.scoring`). -/
structure ScoringConfig where
  maxScore : ℚ
  minScore : ℚ
deriving DecidableEq

/-- The game configuration constants the service reads (`config.game`). -/
structure GameConfig where
  timeLimit : ℚ
  scoring : ScoringConfig
deriving DecidableEq

/-- The mutable fields of the `GameService` instance. -/
structure GameState where
  quizData : List Question
  currentQuestionIndex : Int
  votes : List (Int × Nat)
  scores : List (String × ℚ)
  answeredUsers : List String
  isQuestionActive : Bool
  questionStartTime : ℚ
  customTimeLimit : Option ℚ
  isPaused : Bool
  pauseStartTime : ℚ
  totalPausedTime : ℚ
  answerAnalytics : Analytics
deriving DecidableEq

/-- The state installed by the `GameService` constructor. -/
def initialState : GameState :=
  { quizData := []
    currentQuestionIndex := -1
    votes := []
    scores := []
    answeredUsers := []
    isQuestionActive := false
    questionStartTime := 0
    customTimeLimit := none
    isPaused := false
    pauseStartTime := 0
    totalPausedTime := 0
    answerAnalytics := initialAnalytics }

/-- Dictionary read with a default (`obj[k] || d` / `obj[k] ?? d` patterns). -/
def lookupD {α β : Type} [DecidableEq α] : List (α × β) → α → β → β
  | [], _, d => d
  | (k, v) :: rest, key, d => if k = key then v else lookupD rest key d

/-- Dictionary read returning `none` for an absent key (`obj[k]` = undefined). -/
def lookupOpt {α β : Type} [DecidableEq α] : List (α × β) → α → Option β
  | [], _ => none
  | (k, v) :: rest, key => if k = key then some v else lookupOpt rest key

/-- JS object assignment `obj[k] = v`: update an existing key in place,
append a fresh key at the end. -/
def setKey {α β : Type} [DecidableEq α] : List (α × β) → α → β → List (α × β)
  | [], key, v => [(key, v)]
  | (k, w) :: rest, key, v =>
      if k = key then (key, v) :: rest else (k, w) :: setKey rest key v

/-- Models `this.customTimeLimit || config.game.timeLimit` (JS `||`: `null` and `0`
both fall back to the configured default). -/
def effectiveTimeLimit (cfg : GameConfig) (st : GameState) : ℚ :=
  match st.customTimeLimit with
  | none => cfg.timeLimit
  | some t => if t = 0 then cfg.timeLimit else t

/-- Models `this.quizData[this.currentQuestionIndex]`: `undefined` (here `none`) for a
negative or out-of-range index. -/
def currentQuestion (st : GameState) : Option Question :=
  if st.currentQuestionIndex < 0 then none
  else st.quizData.get? st.currentQuestionIndex.toNat

/-- Models `Math.round`: round half toward positive infinity. -/
def jsRound (q : ℚ) : Int := ⌊q + 1 / 2⌋

/-- The score formula of `processAnswer` (lines 251-256):
`clamp(round(MAX − t·(MAX−MIN)/limit), MIN, MAX)`. -/
def computeScore (cfg : GameConfig) (timeLimit : ℚ) (timeElapsed : ℚ) : ℚ :=
  max cfg.scoring.minScore (min cfg.scoring.maxScore
    ((jsRound (cfg.scoring.maxScore -
      timeElapsed * (cfg.scoring.maxScore - cfg.scoring.minScore) / timeLimit) : ℚ)))

/-- Result value of `processAnswer`. -/
inductive AnswerResult where
  | failure (reason : String)
  | success (isCorrect : Bool) (scoreEarned : ℚ)
      (totalAnswers correctAnswers : Nat)
deriving DecidableEq

/-- The `success` flag of an `AnswerResult`. -/
def AnswerResult.isSuccess : AnswerResult → Bool
  | .failure _ => false
  | .success _ _ _ _ => true

/-- The `reason` field: `some r` on failure, `none` on success. -/
def AnswerResult.failReason : AnswerResult → Option String
  | .failure r => some r
  | .success _ _ _ _ => none

/-- The `isCorrect` field of a successful result (`false` on failure). -/
def AnswerResult.isCorrectField : AnswerResult → Bool
  | .failure _ => false
  | .success c _ _ _ => c

/-- The `scoreEarned` field of a successful result (`0` on failure). -/
def AnswerResult.scoreEarnedField : AnswerResult → ℚ
  | .failure _ => 0
  | .success _ s _ _ => s

/-- Models `GameService.processAnswer(nickname, answerIndex, timeElapsed)`,
lines 193-271: the three guard checks, analytics accumulation, scoring,
dedup marking and vote counting. -/
def processAnswer (cfg : GameConfig) (st : GameState) (nickname : String)
    (answerIndex : Int) (timeElapsed : ℚ) : GameState × AnswerResult :=
  match currentQuestion st with
  | none => (st, .failure "no_question")
  | some currentQ =>
    if st.isQuestionActive = false then (st, .failure "no_question")
    else if nickname ∈ st.answeredUsers then (st, .failure "already_answered")
    else
      let a := st.answerAnalytics
      let newTotal := a.totalAnswers + 1
      let newDist := a.responseTimeDistribution ++ [timeElapsed]
      let isCorrect : Bool := answerIndex = currentQ.correct
      let newCorrect := if isCorrect then a.correctAnswers + 1 else a.correctAnswers
      let stat0 : QuestionStat :=
        match lookupOpt a.questionStats st.currentQuestionIndex with
        | some s => s
        | none =>
          { question := currentQ.question
            correctAnswers := 0
            totalAnswers := 0
            averageResponseTime := 0
            responseTimes := [] }
      let statTimes := stat0.responseTimes ++ [timeElapsed]
      let stat1 : QuestionStat :=
        { question := stat0.question
          correctAnswers :=
            if isCorrect then stat0.correctAnswers + 1 else stat0.correctAnswers
          totalAnswers := stat0.totalAnswers + 1
          averageResponseTime := statTimes.sum / (statTimes.length : ℚ)
          responseTimes := statTimes }
      let newAvg := newDist.sum / (newDist.length : ℚ)
      let scoreEarned : ℚ :=
        if isCorrect ∧ nickname ≠ "" then
          computeScore cfg (effectiveTimeLimit cfg st) timeElapsed
        else 0
      let newScores :=
        if isCorrect ∧ nickname ≠ "" then
          setKey st.scores nickname (lookupD st.scores nickname 0 + scoreEarned)
        else st.scores
      let st' : GameState :=
        { st with
          answerAnalytics :=
            { totalAnswers := newTotal
              correctAnswers := newCorrect
              averageResponseTime := newAvg
              responseTimeDistribution := newDist
              questionStats :=
                setKey a.questionStats st.currentQuestionIndex stat1 }
          scores := newScores
          answeredUsers := st.answeredUsers ++ [nickname]
          votes := setKey st.votes answerIndex (lookupD st.votes answerIndex 0 + 1) }
      (st', .success isCorrect (if isCorrect then scoreEarned else 0)
        newTotal newCorrect)

/-- The view object returned by `getNextQuestion`. -/
structure QuestionView where
  question : String
  questionImg : Option String
  options : List QOption
  timeLeft : ℚ
  questionNumber : Int
  totalQuestions : Nat
deriving DecidableEq

/-- Models `GameService.getNextQuestion()`, lines 95-116.  `now` stands for the
`Date.now()` read stamped into `questionStartTime`. -/
def getNextQuestion (cfg : GameConfig) (st : GameState) (now : ℚ) :
    GameState × Option QuestionView :=
  if st.isQuestionActive = false ∧
      st.currentQuestionIndex < (st.quizData.length : Int) - 1 then
    let idx := st.currentQuestionIndex + 1
    let st' : GameState :=
      { st with
        currentQuestionIndex := idx
        isQuestionActive := true
        votes := []
        answeredUsers := []
        questionStartTime := now }
    match st.quizData.get? idx.toNat with
    | some q =>
        (st', some
          { question := q.question
            questionImg := q.questionImg
            options := q.options
            timeLeft := effectiveTimeLimit cfg st
            questionNumber := idx + 1
            totalQuestions := st.quizData.length })
    | none => (st', none)
  else (st, none)

/-- The object returned by `endCurrentQuestion` on the active path. -/
structure EndResult where
  correctAnswer : Int
  currentOptions : List QOption
  votes : List (Int × Nat)
deriving DecidableEq

/-- Outcome of `endCurrentQuestion`: the early `null`, a normal result, or the
`TypeError` thrown when `quizData[currentQuestionIndex]` is `undefined`
(after `isQuestionActive` has already been cleared). -/
inductive EndOutcome where
  | nullResult
  | ok (r : EndResult)
  | typeError
deriving DecidableEq

/-- Models `GameService.endCurrentQuestion()`, lines 122-135.  The flag is cleared
before the question record is dereferenced, so the thrown case still
deactivates the question. -/
def endCurrentQuestion (st : GameState) : GameState × EndOutcome :=
  if st.isQuestionActive = false then (st, .nullResult)
  else
    let st' : GameState := { st with isQuestionActive := false }
    match currentQuestion st' with
    | some q => (st', .ok { correctAnswer := q.correct
                            currentOptions := q.options
                            votes := st'.votes })
    | none => (st', .typeError)

/-- Models `GameService.resetGame()`, lines 172-184: resets exactly the five listed
fields and nothing else. -/
def resetGame (st : GameState) : GameState :=
  { st with
    currentQuestionIndex := -1
    scores := []
    quizData := []
    isQuestionActive := false
    answerAnalytics := initialAnalytics }

/-- Models `GameService.getAllPlayersScores()`: a shallow copy of `scores`. -/
def getAllPlayersScores (st : GameState) : List (String × ℚ) := st.scores

/-- Models `GameService.getAnalytics()`: a shallow copy of `answerAnalytics`. -/
def getAnalytics (st : GameState) : Analytics := st.answerAnalytics

/-- Models `GameService.togglePause()`, lines 323-340. -/
def togglePause (st : GameState) (now : ℚ) : GameState × Bool :=
  if st.isQuestionActive = false then (st, false)
  else if st.isPaused then
    ({ st with
        totalPausedTime := st.totalPausedTime + (now - st.pauseStartTime)
        isPaused := false }, false)
  else
    ({ st with isPaused := true, pauseStartTime := now }, true)

/-- Models `GameService.getRemainingTime()`, lines 346-354. -/
def getRemainingTime (cfg : GameConfig) (st : GameState) (now : ℚ) : Int :=
  if st.isQuestionActive = false then 0
  else
    max 0 ⌈effectiveTimeLimit cfg st -
      (now - st.questionStartTime - st.totalPausedTime) / 1000⌉

/-- Swap two positions of a list; identity when either index is out of range.
Models the JS destructuring swap `[a[i], a[j]] = [a[j], a[i]]` on valid
indices (the Fisher-Yates loop only ever produces valid ones). -/
def listSwap {α : Type} (l : List α) (i j : ℕ) : List α :=
  match l[i]?, l[j]? with
  | some a, some b => (l.set i b).set j a
  | _, _ => l

/-- The countdown loop of `shuffleArray`: for `i = n-1` down to `1`, swap
position `i` with position `rand i`. -/
def fyLoop {α : Type} (rand : ℕ → ℕ) : ℕ → List α → List α
  | 0, l => l
  | Nat.succ i, l => fyLoop rand i (listSwap l (i + 1) (rand (i + 1)))

/-- Models `shuffleArray` of `src/utils/quizParser.js`, lines 100-107: Fisher-Yates
over a copy of the input, with `rand i` standing for
`Math.floor(Math.random() * (i + 1))` at loop counter `i`. -/
def shuffleArray {α : Type} (rand : ℕ → ℕ) (l : List α) : List α :=
  fyLoop rand (l.length - 1) l

/-- The `questionCount` argument of `loadQuiz`: the sentinel string `"Все"`
(`all`), a JS number, or `null`/another non-number. -/
inductive QuestionCount where
  | all
  | num (n : Int)
  | nullv
deriving DecidableEq

/-- Result of a successful `loadQuiz`. -/
structure LoadResult where
  success : Bool
  questionCount : Nat
  timeLimit : ℚ
deriving DecidableEq

/-- Models `GameService.loadQuiz(fileName, shuffle, questionCount, timeLimit)`,
lines 39-89, on the path where `loadQuizFile` succeeded and returned
`loadedData` (file reading itself is I/O outside the session). -/
def loadQuiz (cfg : GameConfig) (st : GameState) (loadedData : List Question)
    (shuffle : Bool) (rand : ℕ → ℕ) (questionCount : QuestionCount)
    (timeLimit : Option ℚ) : GameState × LoadResult :=
  let data1 := if shuffle then shuffleArray rand loadedData else loadedData
  let data2 :=
    match questionCount with
    | .num n =>
        if 0 < n ∧ n < (data1.length : Int) then data1.take n.toNat else data1
    | _ => data1
  let st' : GameState :=
    { st with
      quizData := data2
      currentQuestionIndex := -1
      scores := []
      customTimeLimit := timeLimit
      answerAnalytics := initialAnalytics }
  (st',
    { success := true
      questionCount := data2.length
      timeLimit :=
        match timeLimit with
        | some t => if t = 0 then cfg.timeLimit else t
        | none => cfg.timeLimit })

/-! ### Helper lemmas -/

theorem currentQuestion_none_iff (st : GameState) :
    currentQuestion st = none ↔
      st.currentQuestionIndex < 0 ∨
        (st.quizData.length : Int) ≤ st.currentQuestionIndex := by
  unfold currentQuestion
  by_cases h : st.currentQuestionIndex < 0
  · rw [if_pos h]
    exact ⟨fun _ => Or.inl h, fun _ => rfl⟩
  · rw [if_neg h]
    rw [List.get?_eq_none]
    constructor
    · intro hl
      right
      omega
    · intro hl
      rcases hl with hl | hl
      · exact absurd hl h
      · omega

theorem currentQuestion_bounds {st : GameState} {q : Question}
    (h : currentQuestion st = some q) :
    0 ≤ st.currentQuestionIndex ∧
      st.currentQuestionIndex < (st.quizData.length : Int) := by
  have hne : currentQuestion st ≠ none := by simp [h]
  rw [Ne, currentQuestion_none_iff] at hne
  push_neg at hne
  exact hne

/-! ### C1: the guard checks of processAnswer -/

/-- The order of checks as the spec words them (§4.1 `submitAnswer`): first
"no question in progress (`cursor` out of range)", then "`questionState`
not Active", then "already answered"; `none` means the submission is
accepted. -/
def answerOutcomeSpec (st : GameState) (participantId : String) :
    Option String :=
  if st.currentQuestionIndex < 0 ∨
      (st.quizData.length : Int) ≤ st.currentQuestionIndex then
    some "no_question"
  else if st.isQuestionActive = false then some "no_question"
  else if participantId ∈ st.answeredUsers then some "already_answered"
  else none

theorem processAnswer_already_answered {st : GameState} {q : Question}
    (cfg : GameConfig) (p : String) (a : Int) (t : ℚ)
    (hq : currentQuestion st = some q) (hact : st.isQuestionActive = true)
    (hmem : p ∈ st.answeredUsers) :
    processAnswer cfg st p a t = (st, .failure "already_answered") := by
  simp [processAnswer, hq, hact, hmem]

/-- C1: `processAnswer` short-circuits through exactly the spec's ordered
checks — out-of-range cursor, then inactive question, both giving
`no_question`, then duplicate participant giving `already_answered`,
otherwise success — and after an accepted submission a second submission
by the same participant during the same Active window is rejected with
`already_answered` and leaves the whole state (hence `votes`) unchanged,
so only the first submission per participant counts. -/
theorem processAnswer_check_order (cfg : GameConfig) (st : GameState)
    (p : String) (a : Int) (t : ℚ) (a2 : Int) (t2 : ℚ) :
    (processAnswer cfg st p a t).2.failReason = answerOutcomeSpec st p ∧
      ((processAnswer cfg st p a t).2.isSuccess = true →
        (processAnswer cfg (processAnswer cfg st p a t).1 p a2 t2).2 =
            .failure "already_answered" ∧
          (processAnswer cfg (processAnswer cfg st p a t).1 p a2 t2).1 =
            (processAnswer cfg st p a t).1) := by
  rcases hq : currentQuestion st with _ | q
  · have hd := (currentQuestion_none_iff st).mp hq
    constructor
    · unfold answerOutcomeSpec
      rw [if_pos hd]
      simp [processAnswer, hq, AnswerResult.failReason]
    · intro hs
      exfalso
      simp [processAnswer, hq, AnswerResult.isSuccess] at hs
  · have hb := currentQuestion_bounds hq
    have hd : ¬(st.currentQuestionIndex < 0 ∨
        (st.quizData.length : Int) ≤ st.currentQuestionIndex) := by omega
    by_cases hact : st.isQuestionActive = false
    · constructor
      · unfold answerOutcomeSpec
        rw [if_neg hd, if_pos hact]
        simp [processAnswer, hq, hact, AnswerResult.failReason]
      · intro hs
        exfalso
        simp [processAnswer, hq, hact, AnswerResult.isSuccess] at hs
    · have hacT : st.isQuestionActive = true := by
        revert hact
        cases st.isQuestionActive <;> simp
      by_cases hmem : p ∈ st.answeredUsers
      · constructor
        · unfold answerOutcomeSpec
          rw [if_neg hd, if_neg hact, if_pos hmem]
          simp [processAnswer, hq, hacT, hmem, AnswerResult.failReason]
        · intro hs
          exfalso
          simp [processAnswer, hq, hacT, hmem, AnswerResult.isSuccess] at hs
      · constructor
        · unfold answerOutcomeSpec
          rw [if_neg hd, if_neg hact, if_neg hmem]
          simp [processAnswer, hq, hacT, hmem, AnswerResult.failReason]
        · intro _
          have h1 : (processAnswer cfg st p a t).1.answeredUsers =
              st.answeredUsers ++ [p] := by
            simp [processAnswer, hq, hacT, hmem]
          have h2 : (processAnswer cfg st p a t).1.isQuestionActive =
              st.isQuestionActive := by
            simp [processAnswer, hq, hacT, hmem]
          have h3 : (processAnswer cfg st p a t).1.currentQuestionIndex =
              st.currentQuestionIndex := by
            simp [processAnswer, hq, hacT, hmem]
          have h4 : (processAnswer cfg st p a t).1.quizData = st.quizData := by
            simp [processAnswer, hq, hacT, hmem]
          have hq1 : currentQuestion (processAnswer cfg st p a t).1 = some q := by
            unfold currentQuestion at hq ⊢
            rw [h3, h4]
            exact hq
          have hmem1 : p ∈ (processAnswer cfg st p a t).1.answeredUsers := by
            rw [h1]
            simp
          have hact1 : (processAnswer cfg st p a t).1.isQuestionActive = true := by
            rw [h2, hacT]
          rw [processAnswer_already_answered cfg p a2 t2 hq1 hact1 hmem1]
          exact ⟨rfl, rfl⟩

/-! ### Concrete fixtures used by witnesses and counterexamples -/

/-- Reference configuration: 15-second default limit, scoring 100/20. -/
def cfgEx : GameConfig := ⟨15, ⟨100, 20⟩⟩

/-- A two-option question whose first option is correct. -/
def qEx : Question := ⟨"q1", none, [⟨"a", none⟩, ⟨"b", none⟩], 0⟩

/-- A question whose answer line was missing: `correct = -1`. -/
def qNegEx : Question := ⟨"qn", none, [⟨"a", none⟩], -1⟩

/-- A session with `qEx` loaded and its first question active. -/
def stActiveEx : GameState :=
  { initialState with
    quizData := [qEx]
    currentQuestionIndex := 0
    isQuestionActive := true }

/-- A session with the never-correct question `qNegEx` active. -/
def stNegEx : GameState :=
  { initialState with
    quizData := [qNegEx]
    currentQuestionIndex := 0
    isQuestionActive := true }

/-- A session with `qEx` loaded but no question started yet. -/
def stLoadedEx : GameState := { initialState with quizData := [qEx] }

/-- Witness for C1 at a concrete session: the first submission by `alice`
succeeds, and her second submission during the same window is rejected as
`already_answered` without touching the state. -/
theorem processAnswer_check_order_witness :
    (processAnswer cfgEx stActiveEx "alice" 0 3).2.isSuccess = true ∧
      ((processAnswer cfgEx (processAnswer cfgEx stActiveEx "alice" 0 3).1
            "alice" 1 5).2 = .failure "already_answered" ∧
        (processAnswer cfgEx (processAnswer cfgEx stActiveEx "alice" 0 3).1
            "alice" 1 5).1 = (processAnswer cfgEx stActiveEx "alice" 0 3).1) :=
  ⟨by rfl,
    (processAnswer_check_order cfgEx stActiveEx "alice" 0 3 1 5).2 (by rfl)⟩

/-! ### C5: rejected submissions change nothing -/

/-- C5: whenever `processAnswer` reports `success:false` — no current
question, inactive question, or duplicate participant — the returned
session state is exactly the input state, so scores, votes, the answered
set and every analytics field are unchanged. -/
theorem processAnswer_failure_preserves_state (cfg : GameConfig)
    (st : GameState) (p : String) (a : Int) (t : ℚ)
    (hf : (processAnswer cfg st p a t).2.isSuccess = false) :
    (processAnswer cfg st p a t).1 = st := by
  rcases hq : currentQuestion st with _ | q
  · simp [processAnswer, hq]
  · by_cases hact : st.isQuestionActive = false
    · simp [processAnswer, hq, hact]
    · have hacT : st.isQuestionActive = true := by
        revert hact
        cases st.isQuestionActive <;> simp
      by_cases hmem : p ∈ st.answeredUsers
      · simp [processAnswer, hq, hacT, hmem]
      · exfalso
        simp [processAnswer, hq, hacT, hmem, AnswerResult.isSuccess] at hf

/-- Witness for C5: a submission with no quiz loaded is rejected and the
state is returned unchanged. -/
theorem processAnswer_failure_preserves_state_witness :
    (processAnswer cfgEx initialState "bob" 0 1).2.isSuccess = false ∧
      (processAnswer cfgEx initialState "bob" 0 1).1 = initialState :=
  ⟨by rfl,
    processAnswer_failure_preserves_state cfgEx initialState "bob" 0 1 (by rfl)⟩

/-! ### C4: no double-advance while a question is Active -/

theorem getNextQuestion_inactive (cfg : GameConfig) (st : GameState)
    (now : ℚ) (h : st.isQuestionActive = true) :
    getNextQuestion cfg st now = (st, none) := by
  unfold getNextQuestion
  rw [if_neg]
  intro hc
  rw [h] at hc
  exact absurd hc.1 (by simp)

/-- C4: when `getNextQuestion` starts a question (returns a non-null view),
the resulting state is Active, and a second `getNextQuestion` call without
an intervening `endCurrentQuestion` returns `null` and the very same
state — the cursor is not advanced again and `votes`, the answered set and
`questionStartTime` keep their values. -/
theorem advance_single_active (cfg : GameConfig) (st : GameState)
    (now now2 : ℚ)
    (hs : (getNextQuestion cfg st now).2.isSome = true) :
    (getNextQuestion cfg st now).1.isQuestionActive = true ∧
      getNextQuestion cfg (getNextQuestion cfg st now).1 now2 =
        ((getNextQuestion cfg st now).1, none) := by
  have h1 : (getNextQuestion cfg st now).1.isQuestionActive = true := by
    by_cases hcond : st.isQuestionActive = false ∧
        st.currentQuestionIndex < (st.quizData.length : Int) - 1
    · unfold getNextQuestion
      rw [if_pos hcond]
      rcases hget : st.quizData[(st.currentQuestionIndex + 1).toNat]?
          with _ | q <;> simp [hget]
    · exfalso
      simp [getNextQuestion, hcond] at hs
  exact ⟨h1, getNextQuestion_inactive cfg _ now2 h1⟩

/-- Witness for C4: with one loaded question, the first advance starts it
and a second advance is a null no-op. -/
theorem advance_single_active_witness :
    (getNextQuestion cfgEx stLoadedEx 1000).2.isSome = true ∧
      ((getNextQuestion cfgEx stLoadedEx 1000).1.isQuestionActive = true ∧
        getNextQuestion cfgEx (getNextQuestion cfgEx stLoadedEx 1000).1 2000 =
          ((getNextQuestion cfgEx stLoadedEx 1000).1, none)) :=
  ⟨by rfl, advance_single_active cfgEx stLoadedEx 1000 2000 (by rfl)⟩

/-! ### C2: the time-decay score formula -/

theorem lookupD_setKey_self {α β : Type} [DecidableEq α]
    (l : List (α × β)) (k : α) (v d : β) :
    lookupD (setKey l k v) k d = v := by
  induction l with
  | nil => simp [setKey, lookupD]
  | cons hd tl ih =>
    obtain ⟨k1, v1⟩ := hd
    by_cases h : k1 = k
    · simp [setKey, lookupD, h]
    · simp [setKey, lookupD, h, ih]

theorem computeScore_lower (cfg : GameConfig) (L t : ℚ) :
    cfg.scoring.minScore ≤ computeScore cfg L t :=
  le_max_left _ _

theorem computeScore_upper (cfg : GameConfig) (L t : ℚ)
    (hmm : cfg.scoring.minScore ≤ cfg.scoring.maxScore) :
    computeScore cfg L t ≤ cfg.scoring.maxScore :=
  max_le hmm (min_le_left _ _)

theorem computeScore_antitone (cfg : GameConfig) (L : ℚ) (hL : 0 < L)
    (hmm : cfg.scoring.minScore ≤ cfg.scoring.maxScore) {t1 t2 : ℚ}
    (h : t1 ≤ t2) : computeScore cfg L t2 ≤ computeScore cfg L t1 := by
  unfold computeScore jsRound
  have hc : (0 : ℚ) ≤ (cfg.scoring.maxScore - cfg.scoring.minScore) / L :=
    div_nonneg (by linarith) hL.le
  have hmul := mul_le_mul_of_nonneg_right h hc
  rw [← mul_div_assoc, ← mul_div_assoc] at hmul
  have hfloor : (⌊cfg.scoring.maxScore -
        t2 * (cfg.scoring.maxScore - cfg.scoring.minScore) / L + 1 / 2⌋ : ℚ) ≤
      (⌊cfg.scoring.maxScore -
        t1 * (cfg.scoring.maxScore - cfg.scoring.minScore) / L + 1 / 2⌋ : ℚ) := by
    exact_mod_cast Int.floor_mono (by linarith)
  exact max_le_max le_rfl (min_le_min le_rfl hfloor)

/-- C2: for an accepted correct answer by a non-empty nickname, the score
credited to `scores[nickname]` (absent key counting as 0) and reported as
`scoreEarned` equals `clamp(round(MAX − t·(MAX−MIN)/effectiveLimit), MIN, MAX)`;
that value always lies between `MIN_SCORE` and `MAX_SCORE`, and for a fixed
effective time limit it is a non-increasing function of the elapsed time. -/
theorem processAnswer_score_formula (cfg : GameConfig) (st : GameState)
    {q : Question} (p : String) (a : Int) (t : ℚ)
    (hq : currentQuestion st = some q) (hact : st.isQuestionActive = true)
    (hmem : p ∉ st.answeredUsers) (hc : a = q.correct) (hp : p ≠ "")
    (hmm : cfg.scoring.minScore ≤ cfg.scoring.maxScore)
    (hL : 0 < effectiveTimeLimit cfg st) :
    lookupD (processAnswer cfg st p a t).1.scores p 0 =
        lookupD st.scores p 0 + computeScore cfg (effectiveTimeLimit cfg st) t ∧
      (processAnswer cfg st p a t).2.scoreEarnedField =
        computeScore cfg (effectiveTimeLimit cfg st) t ∧
      cfg.scoring.minScore ≤ computeScore cfg (effectiveTimeLimit cfg st) t ∧
      computeScore cfg (effectiveTimeLimit cfg st) t ≤ cfg.scoring.maxScore ∧
      (∀ t1 t2 : ℚ, t1 ≤ t2 →
        computeScore cfg (effectiveTimeLimit cfg st) t2 ≤
          computeScore cfg (effectiveTimeLimit cfg st) t1) := by
  refine ⟨?_, ?_, computeScore_lower cfg _ t, computeScore_upper cfg _ t hmm,
    fun t1 t2 h12 => computeScore_antitone cfg _ hL hmm h12⟩
  · simp [processAnswer, hq, hact, hmem, hc, hp, lookupD_setKey_self]
  · simp [processAnswer, hq, hact, hmem, hc, hp, AnswerResult.scoreEarnedField]

/-- Witness for C2 at the reference configuration (100/20, 15 s), a correct
answer by `alice` after 3 seconds. -/
theorem processAnswer_score_formula_witness :
    currentQuestion stActiveEx = some qEx ∧
      stActiveEx.isQuestionActive = true ∧
      "alice" ∉ stActiveEx.answeredUsers ∧
      (0 : Int) = qEx.correct ∧
      ("alice" : String) ≠ "" ∧
      cfgEx.scoring.minScore ≤ cfgEx.scoring.maxScore ∧
      0 < effectiveTimeLimit cfgEx stActiveEx ∧
      (lookupD (processAnswer cfgEx stActiveEx "alice" 0 3).1.scores "alice" 0 =
          lookupD stActiveEx.scores "alice" 0 +
            computeScore cfgEx (effectiveTimeLimit cfgEx stActiveEx) 3 ∧
        (processAnswer cfgEx stActiveEx "alice" 0 3).2.scoreEarnedField =
          computeScore cfgEx (effectiveTimeLimit cfgEx stActiveEx) 3 ∧
        cfgEx.scoring.minScore ≤
          computeScore cfgEx (effectiveTimeLimit cfgEx stActiveEx) 3 ∧
        computeScore cfgEx (effectiveTimeLimit cfgEx stActiveEx) 3 ≤
          cfgEx.scoring.maxScore ∧
        (∀ t1 t2 : ℚ, t1 ≤ t2 →
          computeScore cfgEx (effectiveTimeLimit cfgEx stActiveEx) t2 ≤
            computeScore cfgEx (effectiveTimeLimit cfgEx stActiveEx) t1)) :=
  ⟨by decide, rfl, by decide, rfl, by decide,
    by norm_num [cfgEx],
    by norm_num [cfgEx, effectiveTimeLimit, stActiveEx, initialState],
    @processAnswer_score_formula cfgEx stActiveEx qEx "alice" 0 3 (by decide) rfl
      (by decide) rfl (by decide) (by norm_num [cfgEx])
      (by norm_num [cfgEx, effectiveTimeLimit, stActiveEx, initialState])⟩

/-! ### C3: questions with correct index -1 -/

theorem lookupOpt_setKey_self {α β : Type} [DecidableEq α]
    (l : List (α × β)) (k : α) (v : β) :
    lookupOpt (setKey l k v) k = some v := by
  induction l with
  | nil => simp [setKey, lookupOpt]
  | cons hd tl ih =>
    obtain ⟨k1, v1⟩ := hd
    by_cases h : k1 = k
    · simp [setKey, lookupOpt, h]
    · simp [setKey, lookupOpt, h, ih]

/-- The per-question correct counter at a given index
(`answerAnalytics.questionStats[idx].correctAnswers`, 0 when absent). -/
def statCorrectAt (st : GameState) (idx : Int) : Nat :=
  match lookupOpt st.answerAnalytics.questionStats idx with
  | some s => s.correctAnswers
  | none => 0

/-- Counterexample to C3 as stated: with the never-correct question
`qNegEx` (`correct = -1`) active, a submission with `optionIndex = -1` is
accepted and judged CORRECT — `answerIndex === currentQ.correct` compares
`-1` with `-1` — and the global correct counter is incremented, contrary
to the claim that a correct index of -1 never matches any submitted
answer. -/
theorem processAnswer_neg_index_counterexample :
    currentQuestion stNegEx = some qNegEx ∧
      qNegEx.correct = -1 ∧
      (processAnswer cfgEx stNegEx "bob" (-1) 0).2.isSuccess = true ∧
      (processAnswer cfgEx stNegEx "bob" (-1) 0).2.isCorrectField = true ∧
      (processAnswer cfgEx stNegEx "bob" (-1) 0).1.answerAnalytics.correctAnswers
          = 1 ∧
      stNegEx.answerAnalytics.correctAnswers = 0 :=
  ⟨by decide, by decide, by rfl, by rfl, by rfl, by rfl⟩

/-- C3 (amended): with a current question whose `correct` is -1, every
accepted submission with an `optionIndex` other than -1 is judged
incorrect: `isCorrect` is false, `scoreEarned` is 0, `scores` is untouched
and neither the global nor the per-question correct counter moves.  (A
submitted index of exactly -1, however, matches and is scored as correct —
see the counterexample.) -/
theorem processAnswer_never_correct_amended (cfg : GameConfig)
    (st : GameState) {q : Question} (p : String) (a : Int) (t : ℚ)
    (hq : currentQuestion st = some q) (hcor : q.correct = -1)
    (hact : st.isQuestionActive = true) (hmem : p ∉ st.answeredUsers)
    (ha : a ≠ -1) :
    (processAnswer cfg st p a t).2.isCorrectField = false ∧
      (processAnswer cfg st p a t).2.scoreEarnedField = 0 ∧
      (processAnswer cfg st p a t).1.scores = st.scores ∧
      (processAnswer cfg st p a t).1.answerAnalytics.correctAnswers =
        st.answerAnalytics.correctAnswers ∧
      statCorrectAt (processAnswer cfg st p a t).1 st.currentQuestionIndex =
        statCorrectAt st st.currentQuestionIndex := by
  have hic : ¬(a = q.correct) := by
    rw [hcor]
    exact ha
  refine ⟨?_, ?_, ?_, ?_, ?_⟩
  · simp [processAnswer, hq, hact, hmem, hic, AnswerResult.isCorrectField]
  · simp [processAnswer, hq, hact, hmem, hic, AnswerResult.scoreEarnedField]
  · simp [processAnswer, hq, hact, hmem, hic]
  · simp [processAnswer, hq, hact, hmem, hic]
  · rcases hstat : lookupOpt st.answerAnalytics.questionStats
        st.currentQuestionIndex with _ | s <;>
      simp [processAnswer, hq, hact, hmem, hic, statCorrectAt, hstat,
        lookupOpt_setKey_self]

/-- Witness for the amended C3: submitting option 0 against the
never-correct question is accepted but judged incorrect with no score and
no counter movement. -/
theorem processAnswer_never_correct_amended_witness :
    currentQuestion stNegEx = some qNegEx ∧
      qNegEx.correct = -1 ∧
      stNegEx.isQuestionActive = true ∧
      "bob" ∉ stNegEx.answeredUsers ∧
      (0 : Int) ≠ -1 ∧
      ((processAnswer cfgEx stNegEx "bob" 0 2).2.isCorrectField = false ∧
        (processAnswer cfgEx stNegEx "bob" 0 2).2.scoreEarnedField = 0 ∧
        (processAnswer cfgEx stNegEx "bob" 0 2).1.scores = stNegEx.scores ∧
        (processAnswer cfgEx stNegEx "bob" 0 2).1.answerAnalytics.correctAnswers =
          stNegEx.answerAnalytics.correctAnswers ∧
        statCorrectAt (processAnswer cfgEx stNegEx "bob" 0 2).1
            stNegEx.currentQuestionIndex =
          statCorrectAt stNegEx stNegEx.currentQuestionIndex) :=
  ⟨by decide, by decide, rfl, by decide, by decide,
    @processAnswer_never_correct_amended cfgEx stNegEx qNegEx "bob" 0 2
      (by decide) (by decide) rfl (by decide) (by decide)⟩

/-! ### C6: what resetGame does and does not reset -/

/-- A state reached by an ordinary operation sequence: load one question
with a custom 30-second limit, start it at t=1000 ms, and record one
answer by `alice`. -/
def stAfterOpsEx : GameState :=
  (processAnswer cfgEx
    ((getNextQuestion cfgEx
      ((loadQuiz cfgEx initialState [qEx] false (fun _ => 0)
        QuestionCount.nullv (some 30)).1) 1000).1) "alice" 0 1).1

/-- Counterexample to C6 as stated: after a normal load/advance/answer
sequence, `resetGame` does NOT return the freshly-constructed state — the
`votes` object, the answered set and the custom time limit survive the
reset, so the post-reset state differs from the constructor state. -/
theorem resetGame_not_initial_counterexample :
    resetGame stAfterOpsEx ≠ initialState ∧
      (resetGame stAfterOpsEx).votes = [(0, 1)] ∧
      initialState.votes = [] ∧
      (resetGame stAfterOpsEx).answeredUsers = ["alice"] ∧
      (resetGame stAfterOpsEx).customTimeLimit = some 30 ∧
      initialState.customTimeLimit = none :=
  ⟨by decide, by rfl, by rfl, by rfl, by decide, by rfl⟩

/-- C6 (amended): `resetGame` resets exactly `quizData`, the cursor,
`scores`, the Active flag and the analytics block to their constructor
values — so `getScores()` then returns the empty map,
`getAnalytics().totalAnswers` is 0 and `advance()` returns null — but it
leaves `votes`, the answered set, the custom time limit, the question
start time and the pause bookkeeping untouched, so the state is not in
general the freshly-constructed one. -/
theorem resetGame_resets_core_fields (cfg : GameConfig) (st : GameState)
    (now : ℚ) :
    (resetGame st).quizData = [] ∧
      (resetGame st).currentQuestionIndex = -1 ∧
      (resetGame st).scores = [] ∧
      (resetGame st).isQuestionActive = false ∧
      (resetGame st).answerAnalytics = initialAnalytics ∧
      getAllPlayersScores (resetGame st) = [] ∧
      (getAnalytics (resetGame st)).totalAnswers = 0 ∧
      getNextQuestion cfg (resetGame st) now = (resetGame st, none) ∧
      (resetGame st).votes = st.votes ∧
      (resetGame st).answeredUsers = st.answeredUsers ∧
      (resetGame st).customTimeLimit = st.customTimeLimit ∧
      (resetGame st).questionStartTime = st.questionStartTime ∧
      (resetGame st).isPaused = st.isPaused ∧
      (resetGame st).pauseStartTime = st.pauseStartTime ∧
      (resetGame st).totalPausedTime = st.totalPausedTime := by
  refine ⟨rfl, rfl, rfl, rfl, rfl, rfl, rfl, ?_, rfl, rfl, rfl, rfl, rfl,
    rfl, rfl⟩
  unfold getNextQuestion
  rw [if_neg]
  intro hcond
  have h2 := hcond.2
  simp [resetGame] at h2

/-! ### C7: getRemainingTime and pause/resume -/

theorem togglePause_questionStartTime (st : GameState) (t0 : ℚ) :
    (togglePause st t0).1.questionStartTime = st.questionStartTime := by
  unfold togglePause
  by_cases hact : st.isQuestionActive = false
  · rw [if_pos hact]
  · rw [if_neg hact]
    by_cases hp : st.isPaused = true
    · rw [if_pos hp]
    · rw [if_neg hp]

/-- C7: `getRemainingTime` is 0 whenever no question is Active, and
otherwise equals
`max(0, ceil(limit − (now − questionStartTime − totalPausedTime)/1000))`;
`togglePause` never alters `questionStartTime`, and for an active unpaused
session the remaining time read at the moment of pausing equals the
remaining time read at the moment of resuming — pausing freezes the
effective elapsed time. -/
theorem getRemainingTime_pause_freeze (cfg : GameConfig) (st : GameState)
    (tq t0 t1 : ℚ) :
    (st.isQuestionActive = false → getRemainingTime cfg st tq = 0) ∧
      (st.isQuestionActive = true →
        getRemainingTime cfg st tq =
          max 0 ⌈effectiveTimeLimit cfg st -
            (tq - st.questionStartTime - st.totalPausedTime) / 1000⌉) ∧
      (togglePause st t0).1.questionStartTime = st.questionStartTime ∧
      (st.isQuestionActive = true → st.isPaused = false →
        getRemainingTime cfg (togglePause (togglePause st t0).1 t1).1 t1 =
          getRemainingTime cfg st t0) := by
  refine ⟨?_, ?_, togglePause_questionStartTime st t0, ?_⟩
  · intro h
    simp [getRemainingTime, h]
  · intro h
    simp [getRemainingTime, h]
  · intro hact hp
    have hstep : (togglePause st t0).1 =
        { st with isPaused := true, pauseStartTime := t0 } := by
      simp [togglePause, hact, hp]
    have hstep2 : (togglePause (togglePause st t0).1 t1).1 =
        { st with
          isPaused := false
          pauseStartTime := t0
          totalPausedTime := st.totalPausedTime + (t1 - t0) } := by
      rw [hstep]
      simp [togglePause, hact]
    rw [hstep2]
    simp only [getRemainingTime, effectiveTimeLimit, hact]
    congr 1
    congr 1
    ring_nf

/-- Witness for C7 on the concrete active session: pause at 3000 ms and
resume at 8000 ms; the remaining time after resume equals the remaining
time at the pause instant. -/
theorem getRemainingTime_pause_freeze_witness :
    stActiveEx.isQuestionActive = true ∧
      stActiveEx.isPaused = false ∧
      getRemainingTime cfgEx
          (togglePause (togglePause stActiveEx 3000).1 8000).1 8000 =
        getRemainingTime cfgEx stActiveEx 3000 :=
  ⟨rfl, rfl,
    (getRemainingTime_pause_freeze cfgEx stActiveEx 0 3000 8000).2.2.2 rfl rfl⟩

/-! ### C9: shuffleArray is a permutation -/

theorem cons_set_perm {α : Type} :
    ∀ (t : List α) (k : ℕ) (a b : α), t[k]? = some b →
      (b :: t.set k a).Perm (a :: t)
  | [], k, _, _, h => by simp at h
  | c :: t', 0, a, b, h => by
    have hcb : c = b := by simpa using h
    simpa [hcb] using List.Perm.swap a b t'
  | c :: t', Nat.succ m, a, b, h => by
    have h' : t'[m]? = some b := by simpa using h
    have ih := cons_set_perm t' m a b h'
    have step1 : (b :: c :: t'.set m a).Perm (c :: b :: t'.set m a) :=
      List.Perm.swap c b _
    have step2 : (c :: b :: t'.set m a).Perm (c :: a :: t') := ih.cons c
    have step3 : (c :: a :: t').Perm (a :: c :: t') := List.Perm.swap a c t'
    simpa using (step1.trans step2).trans step3

theorem set_set_perm {α : Type} :
    ∀ (l : List α) (i j : ℕ) (a b : α), l[i]? = some a →
      l[j]? = some b → ((l.set i b).set j a).Perm l
  | [], i, _, _, _, hi, _ => by simp at hi
  | x :: t, 0, 0, a, b, hi, hj => by
    have hxa : x = a := by simpa using hi
    simp [hxa]
  | x :: t, 0, Nat.succ m, a, b, hi, hj => by
    have hxa : x = a := by simpa using hi
    have hj' : t[m]? = some b := by simpa using hj
    simpa [hxa] using cons_set_perm t m a b hj'
  | x :: t, Nat.succ m, 0, a, b, hi, hj => by
    have hxb : x = b := by simpa using hj
    have hi' : t[m]? = some a := by simpa using hi
    simpa [hxb] using cons_set_perm t m b a hi'
  | x :: t, Nat.succ m, Nat.succ k, a, b, hi, hj => by
    have hi' : t[m]? = some a := by simpa using hi
    have hj' : t[k]? = some b := by simpa using hj
    simpa using (set_set_perm t m k a b hi' hj').cons x

theorem listSwap_perm {α : Type} (l : List α) (i j : ℕ) :
    (listSwap l i j).Perm l := by
  unfold listSwap
  rcases hi : l[i]? with _ | a <;> rcases hj : l[j]? with _ | b <;>
    simp [hi, hj]
  exact set_set_perm l i j a b hi hj

theorem fyLoop_perm {α : Type} (rand : ℕ → ℕ) :
    ∀ (n : ℕ) (l : List α), (fyLoop rand n l).Perm l
  | 0, _ => List.Perm.refl _
  | Nat.succ i, l =>
    (fyLoop_perm rand i _).trans (listSwap_perm l (i + 1) (rand (i + 1)))

theorem shuffleArray_perm {α : Type} (rand : ℕ → ℕ) (l : List α) :
    (shuffleArray rand l).Perm l :=
  fyLoop_perm rand (l.length - 1) l

/-- C9: `shuffleArray` returns a permutation of its input — the same
multiset of elements and the same length, for every draw of the random
oracle — and `loadQuiz` with `shuffle = false` installs the original
question list unchanged except for taking a prefix (truncation), so the
original order is preserved exactly. -/
theorem shuffleArray_perm_loadQuiz_order {α : Type} (rand : ℕ → ℕ)
    (l : List α) (cfg : GameConfig) (st : GameState) (data : List Question)
    (qc : QuestionCount) (tl : Option ℚ) :
    (shuffleArray rand l).Perm l ∧
      (shuffleArray rand l).length = l.length ∧
      (∃ k, (loadQuiz cfg st data false rand qc tl).1.quizData =
        data.take k) := by
  refine ⟨shuffleArray_perm rand l, (shuffleArray_perm rand l).length_eq, ?_⟩
  rcases qc with _ | n | _
  · exact ⟨data.length, by simp [loadQuiz]⟩
  · by_cases hc : 0 < n ∧ n < (data.length : Int)
    · exact ⟨n.toNat, by simp [loadQuiz, hc]⟩
    · exact ⟨data.length, by simp [loadQuiz, hc]⟩
  · exact ⟨data.length, by simp [loadQuiz]⟩

/-! ### C8: the question-count limit -/

/-- The question list after the optional shuffle step of `loadQuiz`. -/
def postShuffle (sh : Bool) (rand : ℕ → ℕ) (data : List Question) :
    List Question :=
  if sh then shuffleArray rand data else data

theorem postShuffle_length (sh : Bool) (rand : ℕ → ℕ)
    (data : List Question) : (postShuffle sh rand data).length = data.length := by
  unfold postShuffle
  by_cases h : sh = true
  · rw [if_pos h]
    exact (shuffleArray_perm rand data).length_eq
  · rw [if_neg h]

/-- C8: if the `questionCount` limit is a positive integer strictly below
the number of loaded questions, `loadQuiz` retains exactly the first
`limit` post-shuffle questions in order; the `"Все"` sentinel, a
non-numeric limit, or a limit at least the loaded count retains all
post-shuffle questions unchanged. -/
theorem loadQuiz_truncation (cfg : GameConfig) (st : GameState)
    (data : List Question) (sh : Bool) (rand : ℕ → ℕ) (tl : Option ℚ)
    (n : Int) :
    ((0 < n ∧ n < (data.length : Int)) →
        (loadQuiz cfg st data sh rand (QuestionCount.num n) tl).1.quizData =
          (postShuffle sh rand data).take n.toNat) ∧
      (loadQuiz cfg st data sh rand QuestionCount.all tl).1.quizData =
        postShuffle sh rand data ∧
      (loadQuiz cfg st data sh rand QuestionCount.nullv tl).1.quizData =
        postShuffle sh rand data ∧
      ((data.length : Int) ≤ n →
        (loadQuiz cfg st data sh rand (QuestionCount.num n) tl).1.quizData =
          postShuffle sh rand data) := by
  have hlen : ((if sh = true then shuffleArray rand data else data) :
      List Question).length = data.length := by
    have h := postShuffle_length sh rand data
    unfold postShuffle at h
    exact h
  refine ⟨?_, by simp [loadQuiz, postShuffle], by simp [loadQuiz, postShuffle], ?_⟩
  · intro hc
    have hc' : 0 < n ∧ n < (((if sh = true then shuffleArray rand data
        else data) : List Question).length : Int) := by
      rw [hlen]
      exact hc
    simp only [loadQuiz]
    rw [if_pos hc']
    rfl
  · intro hge
    have hc' : ¬(0 < n ∧ n < (((if sh = true then shuffleArray rand data
        else data) : List Question).length : Int)) := by
      rw [hlen]
      omega
    simp only [loadQuiz]
    rw [if_neg hc']
    rfl

/-- Witness for C8: ten questions with `limit = 3` keep exactly the first
three. -/
theorem loadQuiz_truncation_witness :
    ((0 : Int) < 3 ∧ (3 : Int) < (List.replicate 10 qEx).length) ∧
      (loadQuiz cfgEx initialState (List.replicate 10 qEx) false (fun _ => 0)
          (QuestionCount.num 3) none).1.quizData =
        (postShuffle false (fun _ => 0) (List.replicate 10 qEx)).take
          (3 : Int).toNat :=
  ⟨by decide,
    (loadQuiz_truncation cfgEx initialState (List.replicate 10 qEx) false
      (fun _ => 0) none 3).1 (by decide)⟩

/-! ### C10: loadQuiz during an Active question -/

/-- C10: a successful `loadQuiz` issued while a question is Active leaves
the Active flag set while resetting the cursor to -1.  In that state
`getNextQuestion` returns null without changing anything and
`processAnswer` fails with `no_question` without changing anything — and
since both no-ops return the same state, this persists for every
subsequent call until `endCurrentQuestion` clears the flag (its own
question lookup then fails, but the flag is cleared before the lookup). -/
theorem loadQuiz_while_active_blocks (cfg : GameConfig) (st : GameState)
    (data : List Question) (sh : Bool) (rand : ℕ → ℕ) (qc : QuestionCount)
    (tl : Option ℚ) (now : ℚ) (p : String) (a : Int) (t : ℚ)
    (hact : st.isQuestionActive = true) :
    (loadQuiz cfg st data sh rand qc tl).1.isQuestionActive = true ∧
      (loadQuiz cfg st data sh rand qc tl).1.currentQuestionIndex = -1 ∧
      getNextQuestion cfg (loadQuiz cfg st data sh rand qc tl).1 now =
        ((loadQuiz cfg st data sh rand qc tl).1, none) ∧
      processAnswer cfg (loadQuiz cfg st data sh rand qc tl).1 p a t =
        ((loadQuiz cfg st data sh rand qc tl).1, .failure "no_question") ∧
      (endCurrentQuestion (loadQuiz cfg st data sh rand qc tl).1).1.isQuestionActive
        = false := by
  have hact1 : (loadQuiz cfg st data sh rand qc tl).1.isQuestionActive = true := by
    simp [loadQuiz, hact]
  have hcur : (loadQuiz cfg st data sh rand qc tl).1.currentQuestionIndex = -1 := by
    simp [loadQuiz]
  have hq1 : currentQuestion (loadQuiz cfg st data sh rand qc tl).1 = none := by
    unfold currentQuestion
    rw [hcur]
    simp
  refine ⟨hact1, hcur, getNextQuestion_inactive cfg _ now hact1, ?_, ?_⟩
  · unfold processAnswer
    rw [hq1]
  · unfold endCurrentQuestion
    rw [if_neg]
    · rcases hq2 : currentQuestion
          { (loadQuiz cfg st data sh rand qc tl).1 with
            isQuestionActive := false } with _ | q <;> simp [hq2]
    · rw [hact1]
      simp

/-- Witness for C10: loading a fresh quiz while `stActiveEx`'s question is
Active leaves the session blocked for advancing and answering. -/
theorem loadQuiz_while_active_blocks_witness :
    stActiveEx.isQuestionActive = true ∧
      ((loadQuiz cfgEx stActiveEx [qNegEx] false (fun _ => 0)
          QuestionCount.nullv none).1.isQuestionActive = true ∧
        (loadQuiz cfgEx stActiveEx [qNegEx] false (fun _ => 0)
          QuestionCount.nullv none).1.currentQuestionIndex = -1 ∧
        getNextQuestion cfgEx (loadQuiz cfgEx stActiveEx [qNegEx] false
            (fun _ => 0) QuestionCount.nullv none).1 5000 =
          ((loadQuiz cfgEx stActiveEx [qNegEx] false (fun _ => 0)
            QuestionCount.nullv none).1, none) ∧
        processAnswer cfgEx (loadQuiz cfgEx stActiveEx [qNegEx] false
            (fun _ => 0) QuestionCount.nullv none).1 "alice" 0 1 =
          ((loadQuiz cfgEx stActiveEx [qNegEx] false (fun _ => 0)
            QuestionCount.nullv none).1, .failure "no_question") ∧
        (endCurrentQuestion (loadQuiz cfgEx stActiveEx [qNegEx] false
            (fun _ => 0) QuestionCount.nullv none).1).1.isQuestionActive
          = false) :=
  ⟨rfl,
    loadQuiz_while_active_blocks cfgEx stActiveEx [qNegEx] false (fun _ => 0)
      QuestionCount.nullv none 5000 "alice" 0 1 rfl⟩

end AkaQuiz
